import Mathlib

/-!
Verification of the consensus core of the `tycho` repository against its
natural-language specification.

The development shallowly embeds the Rust sources:
  * `consensus/src/engine/input_buffer.rs`        (payload input buffer)
  * `consensus/src/dag/verifier.rs`               (two-phase point verification)
  * `consensus/src/dag/producer.rs`               (own-point production)
  * `consensus/src/dag/dag_round.rs`              (round ledger insertion)
  * `consensus/src/intercom/broadcast/broadcast_filter.rs` (admission gate)

Machine integers (`usize`, `u32`, `u64`) are modelled as `Nat`: every value
involved (byte counts, round numbers, unix times) is used only with
comparisons, saturating/checked subtraction and small additions, so no
wrap-around behaviour is reachable in the modelled code paths.  Rust panics
(`assert!`, `expect`, `panic!`) are modelled as `none` of an `Option` result.
Opaque external collaborators (signatures, hashing, the peer schedule) are
modelled as explicit parameters.  Types of this repository that are only
declared outside the embedded files (`NodeCount`, point accessors) are
modelled from the specification and carry a doc comment saying so.
-/

namespace Tycho

/-! ### Input buffer, from `consensus/src/engine/input_buffer.rs`

A payload blob (`Bytes`) is represented by its byte length: the buffer code
observes a blob only through `len()`, and in the scenarios below lengths
identify blobs uniquely. -/

/-- State of `InputBufferData`: the deque of buffered blobs, the byte
accounting field `data_bytes`, and `offset_elements`, the length of the last
returned batch. -/
structure InputBufferData where
  data : List Nat
  data_bytes : Nat
  offset_elements : Nat
deriving Repr, DecidableEq

/-- The eviction scan inside `InputBufferData::add` (lines 93-107): Rust's
`iter().take_while(|evicted| { self.data_bytes -= evicted.len(); self.data_bytes > max_data_bytes }).count()`.
Every visited element is subtracted from `data_bytes` (a side effect of the
closure), but only the elements for which the predicate returned `true` are
counted for `drain`.  Returns `(new data_bytes, to_drop)`; `none` models the
`checked_sub` panic ("decrease buffered data size on eviction"). -/
def evictScan (maxData : Nat) : List Nat → Nat → Option (Nat × Nat)
  | [], bytes => some (bytes, 0)
  | e :: rest, bytes =>
    if bytes < e then none
    else
      let bytes' := bytes - e
      if maxData < bytes' then
        match evictScan maxData rest bytes' with
        | none => none
        | some (b, n) => some (b, n + 1)
      else some (bytes', 0)

/-- `InputBufferData::add` (lines 81-111), parameterised by the configured
buffer byte budget `MempoolConfig::PAYLOAD_BUFFER_BYTES`.  `none` models a
panic (the oversize assert, or `checked_sub` failing during eviction). -/
def ibAdd (bufferBytes : Nat) (st : InputBufferData) (payload : Nat) :
    Option InputBufferData :=
  if bufferBytes < payload then none
  else
    let maxData := bufferBytes - payload
    let evicted : Option InputBufferData :=
      if maxData < st.data_bytes then
        match evictScan maxData st.data st.data_bytes with
        | none => none
        | some (bytes, toDrop) =>
          some { data := st.data.drop toDrop
                 data_bytes := bytes
                 offset_elements := st.offset_elements - toDrop }
      else some st
    match evicted with
    | none => none
    | some st' =>
      some { st' with data_bytes := st'.data_bytes + payload
                      data := st'.data ++ [payload] }

/-- The batch-collection loop of `InputBufferData::fetch` (lines 66-79):
take a prefix while the accumulated byte count stays within
`MempoolConfig::PAYLOAD_BATCH_BYTES`. -/
def ibFetchBatch (batchBytes : Nat) : List Nat → Nat → List Nat
  | [], _ => []
  | e :: rest, taken =>
    if taken + e ≤ batchBytes then e :: ibFetchBatch batchBytes rest (taken + e)
    else []

/-- `InputBufferData::fetch` (lines 66-79): returns the batch and overwrites
`offset_elements` with its length. -/
def ibFetch (batchBytes : Nat) (st : InputBufferData) :
    List Nat × InputBufferData :=
  let result := ibFetchBatch batchBytes st.data 0
  (result, { st with offset_elements := result.length })

/-- `InputBufferData::commit_offset` (lines 113-128): drain the previously
returned batch prefix and subtract its bytes; `none` models the
`checked_sub` panic ("decrease buffered data size on commit offset").
`update_capacity` only tunes the deque's capacity and has no observable
effect on contents, so it is not represented. -/
def ibCommitOffset (st : InputBufferData) : Option InputBufferData :=
  let committed := (st.data.take st.offset_elements).foldl (· + ·) 0
  if st.data_bytes < committed then none
  else
    some { data := st.data.drop st.offset_elements
           data_bytes := st.data_bytes - committed
           offset_elements := 0 }

/-- `InputBufferData::fetch_inner` (lines 49-56): `only_fresh = true` first
commits the previously returned batch, then fetches. -/
def ibFetchInner (batchBytes : Nat) (st : InputBufferData) (onlyFresh : Bool) :
    Option (List Nat × InputBufferData) :=
  if onlyFresh then
    match ibCommitOffset st with
    | none => none
    | some st' => some (ibFetch batchBytes st')
  else some (ibFetch batchBytes st)


/-! ### Point data model, from `models/` as used by the embedded sources

`PeerId`, `Digest`, `Signature`, `Round` and `UnixTime` are represented as
`Nat`: the embedded code only compares them for equality/order and takes
predecessors/maxima. -/

/-- `Location`: (round, author). -/
structure Location where
  round : Nat
  author : Nat
deriving Repr, DecidableEq

/-- `PointId`: (location, digest), the unique identity of a point. -/
structure PointId where
  location : Location
  digest : Nat
deriving Repr, DecidableEq

/-- `PrevPoint`: digest of the author's own point at round−1 plus the
collected evidence signatures (peer → signature). -/
structure PrevPoint where
  digest : Nat
  evidence : List (Nat × Nat)
deriving Repr, DecidableEq

/-- `Through`: which dependency map a link path goes through. -/
inductive Through
  | includes (peer : Nat)
  | witness (peer : Nat)
deriving Repr, DecidableEq

/-- `Link`: anchor-tracing link of a point. -/
inductive Link
  | toSelf
  | direct (path : Through)
  | indirect (dest : PointId) (path : Through)
deriving Repr, DecidableEq

/-- `LinkField`: which of the two anchor links is meant. -/
inductive LinkField
  | proof
  | trigger
deriving Repr, DecidableEq

/-- `PointBody` with the fields the embedded sources read (`location`,
`time`, `anchor_time`, `payload`, `proof`, `includes`, `witness`,
`anchor_trigger`, `anchor_proof`).  The dependency maps are association
lists peer → digest. -/
structure PointBody where
  location : Location
  time : Nat
  anchor_time : Nat
  payload : List Nat
  proof : Option PrevPoint
  includes : List (Nat × Nat)
  witness : List (Nat × Nat)
  anchor_trigger : Link
  anchor_proof : Link
deriving Repr, DecidableEq

/-- `Point`: a signed body plus its content digest (the hash itself is an
external primitive, so the digest is carried as a field). -/
structure Point where
  body : PointBody
  digest : Nat
deriving Repr, DecidableEq

def Point.id (p : Point) : PointId := ⟨p.body.location, p.digest⟩

def Point.round (p : Point) : Nat := p.body.location.round

def Point.author (p : Point) : Nat := p.body.location.author

/-- Association-list lookup for the peer → digest maps (`BTreeMap::get`). -/
def alookup {α : Type} (k : Nat) : List (Nat × α) → Option α
  | [] => none
  | kv :: rest => if kv.1 = k then some kv.2 else alookup k rest

/-- `Point::anchor_link`: selects the link for a field. -/
def Point.anchorLink (p : Point) : LinkField → Link
  | .proof => p.body.anchor_proof
  | .trigger => p.body.anchor_trigger

/-- Modelled from the spec: `Point::anchor_link_id` (in `models/point.rs`,
not under `src/`) gives the id of the first hop of the anchor link: the
point itself for `ToSelf`, the named `includes` dependency at round−1 or
`witness` dependency at round−2 for `Direct`/`Indirect` paths (spec section
3, `Link`).  A missing map entry is a coding-error panic in the source;
well-formed points always carry the named dependency, so the model defaults
the digest to 0 there. -/
def Point.anchorLinkId (p : Point) (f : LinkField) : PointId :=
  match p.anchorLink f with
  | .toSelf => p.id
  | .direct (.includes peer) | .indirect _ (.includes peer) =>
      ⟨⟨p.round - 1, peer⟩, (alookup peer p.body.includes).getD 0⟩
  | .direct (.witness peer) | .indirect _ (.witness peer) =>
      ⟨⟨p.round - 2, peer⟩, (alookup peer p.body.witness).getD 0⟩

/-- Modelled from the spec: `Point::anchor_id` — the id of the anchor this
point's link ultimately designates: the `to` field of an `Indirect` link,
otherwise the first hop itself (spec section 3, `Link`). -/
def Point.anchorId (p : Point) (f : LinkField) : PointId :=
  match p.anchorLink f with
  | .indirect dest _ => dest
  | _ => p.anchorLinkId f

/-- `Point::anchor_round`: round of the designated anchor. -/
def Point.anchorRound (p : Point) (f : LinkField) : Nat :=
  (p.anchorId f).location.round

/-- `DagPoint` verdicts.  `ValidPoint` is collapsed to its point: the
embedded code reads only `valid.point`. -/
inductive DagPoint
  | trusted (point : Point)
  | suspicious (point : Point)
  | invalid (point : Point)
  | notExists (pid : PointId)
deriving Repr, DecidableEq

/-- Modelled from the spec: `MempoolConfig::GENESIS_ROUND` is not under
`src/`; the genesis round is the protocol's first round, modelled as 0. -/
def genesisRound : Nat := 0

/-- Modelled from the spec: `NodeCount` (`models/node_count.rs`) is not
under `src/`.  Spec sections 4.4 and 9 fix the shape of the thresholds: for
a committee of `n = 3f+1` nodes majority is `2f+1`, "majority of others"
excludes self, and the reliable minority is one third plus one (`f+1`; the
spec scenario with committee size 7 pins the reliable minority to 3).  For
other sizes `f = (n-1)/3` rounding down. -/
def nodeCountF (n : Nat) : Nat := (n - 1) / 3

/-- Modelled from the spec: majority threshold `2f+1`. -/
def majority (n : Nat) : Nat := 2 * nodeCountF n + 1

/-- Modelled from the spec: evidence threshold excluding self, `2f`. -/
def majorityOfOthers (n : Nat) : Nat := 2 * nodeCountF n

/-- Modelled from the spec: reliable minority `f+1`. -/
def reliableMinority (n : Nat) : Nat := nodeCountF n + 1

/-- Modelled from the spec: `NodeCount::try_from` rejects committee sizes
below the protocol's minimal bootstrap size (spec 4.1); the exact constant
is not pinned by the spec, the model uses 3. -/
def nodeCountTryFrom (n : Nat) : Option Nat := if n < 3 then none else some n

/-- External collaborators of the verifier and producer: point integrity
and well-formedness (pure functions of point bytes whose implementation
lives outside the embedded sources), the peer schedule, and signature
verification (`sig.verifies(peer, digest)`). -/
structure Env where
  integrityOk : Point → Bool
  wellFormed : Point → Bool
  peersFor : Nat → List Nat
  sigVerifies : Nat → Nat → Nat → Bool

/-! ### Verifier phase 1, from `consensus/src/dag/verifier.rs` -/

/-- `Verifier::is_list_of_signers_ok` (lines 324-377): genesis is exempt;
witness authors must be in the round−2 committee; `includes` must reach the
majority of the round−1 committee and its authors must belong to it; a
present proof needs a known committee at the point's round, at least
"majority of others" evidence signatures, all from that committee. -/
def isListOfSignersOk (env : Env) (p : Point) : Bool :=
  if p.round = genesisRound then true
  else
    let witnessPeers := env.peersFor (p.round - 2)
    let includesPeers := env.peersFor (p.round - 1)
    let proofPeers := env.peersFor p.round
    if p.body.witness.any (fun pd => ¬ witnessPeers.contains pd.1) then false
    else if p.body.includes.length < majority includesPeers.length then false
    else if p.body.includes.any (fun pd => ¬ includesPeers.contains pd.1) then
      false
    else match p.body.proof with
      | none => true
      | some proven =>
        match nodeCountTryFrom proofPeers.length with
        | none => false
        | some nc =>
          if proven.evidence.length < majorityOfOthers nc then false
          else ¬ proven.evidence.any (fun ps => ¬ proofPeers.contains ps.1)

/-- `Verifier::verify` (lines 38-47): integrity failure ⇒ `NotExists`,
well-formedness or signer-membership failure ⇒ `Invalid`, else ok. -/
def verify (env : Env) (p : Point) : Except DagPoint Unit :=
  if ¬ env.integrityOk p then .error (.notExists p.id)
  else if ¬ (env.wellFormed p && isListOfSignersOk env p) then
    .error (.invalid p)
  else .ok ()


/-! ### Producer includes selection, from `consensus/src/dag/producer.rs` -/

/-- Modelled from the spec: the observable part of a `DagLocation`'s
`InclusionState` (in `dag/dag_location.rs`, not under `src/`) that
`Producer::includes` reads — `state().point()`, the resolved verdict if
any, and whether `state().signed()` is absent or ok (the "signable" flag,
spec 4.3). -/
structure LocState where
  point : Option DagPoint
  signedOk : Bool
deriving Repr, DecidableEq

/-- Modelled from the spec: `DagPoint::trusted()` returns the point for a
`Trusted` verdict only (spec 4.3: includes are points "currently classified
Trusted"). -/
def DagPoint.trustedPoint : DagPoint → Option Point
  | .trusted p => some p
  | _ => none

/-- The `select` closure of `Producer::includes` (lines 96-108): keep each
location whose state resolved to a `Trusted` point and whose signed state
is absent or ok. -/
def selectTrusted (locs : List (Nat × LocState)) : List Point :=
  locs.filterMap fun pl =>
    match pl.2.point with
    | none => none
    | some dp =>
      match dp.trustedPoint with
      | none => none
      | some pt => if pl.2.signedOk then some pt else none

/-- `Producer::includes` (lines 95-114): the selection above followed by
`assert!(count >= majority)`; `none` models the assert panic
("producing point with not enough includes"). -/
def producerIncludes (nodeCount : Nat) (locs : List (Nat × LocState)) :
    Option (List Point) :=
  if (selectTrusted locs).length < majority nodeCount then none
  else some (selectTrusted locs)



/-! ### Verifier phase 2: dependency checking, `verifier.rs` lines 216-405 -/

/-- `Verifier::is_proof_ok` (lines 380-405): the four coding-error panics
(author mismatch, round mismatch, absent proof, digest mismatch) are `none`;
a decreasing time is the Byzantine check that returns `false`; otherwise
every evidence signature must verify. -/
def isProofOk (env : Env) (point proven : Point) : Option Bool :=
  if point.author ≠ proven.author then none
  else if point.round - 1 ≠ proven.round then none
  else
    match point.body.proof with
    | none => none
    | some proof =>
      if proof.digest ≠ proven.digest then none
      else if point.body.time < proven.body.time then some false
      else
        some (proof.evidence.all fun ps => env.sigVerifies ps.2 ps.1 proof.digest)

/-- Outcome of one iteration of the `check_deps` loop: an early `return`
with a verdict, a panic, or fall-through to the next dependency with the
current equivocation flag. -/
inductive StepRes
  | ret (d : DagPoint)
  | panic
  | cont (isSuspicious : Bool)
deriving Repr, DecidableEq

/-- One iteration of the loop body of `Verifier::check_deps`
(lines 239-313), processing a single resolved dependency. -/
def checkDepStep (env : Env) (point : Point) (dep : DagPoint)
    (isSuspicious : Bool) : StepRes :=
  let provenVertex := point.body.proof.map (·.digest)
  let prevLoc : Location := ⟨point.round - 1, point.author⟩
  let anchorTriggerId := point.anchorId .trigger
  let anchorProofId := point.anchorId .proof
  let anchorTriggerLinkId := point.anchorLinkId .trigger
  let anchorProofLinkId := point.anchorLinkId .proof
  match dep with
  | .trusted valid | .suspicious valid =>
    let afterProof : StepRes :=
      if prevLoc = valid.body.location then
        match provenVertex with
        | some vertexDigest =>
          if valid.digest = vertexDigest then
            match isProofOk env point valid with
            | none => .panic
            | some false => .ret (.invalid point)
            | some true => .cont isSuspicious
          else .cont true
        | none => .ret (.invalid point)
      else .cont isSuspicious
    match afterProof with
    | .cont susp =>
      if anchorTriggerId.location.round < valid.anchorRound .trigger
          ∨ anchorProofId.location.round < valid.anchorRound .proof then
        .ret (.invalid point)
      else if (valid.id = anchorTriggerLinkId
                ∧ valid.anchorId .trigger ≠ anchorTriggerId)
          ∨ (valid.id = anchorProofLinkId
                ∧ valid.anchorId .proof ≠ anchorProofId) then
        .ret (.invalid point)
      else if point.id = anchorProofId ∧ prevLoc = valid.body.location
          ∧ point.body.anchor_time ≠ valid.body.time then
        .ret (.invalid point)
      else if valid.id = anchorProofLinkId
          ∧ valid.body.anchor_time ≠ point.body.anchor_time then
        .ret (.invalid point)
      else .cont susp
    | other => other
  | .invalid invalidPoint =>
    if prevLoc = invalidPoint.body.location then
      match provenVertex with
      | some vertexDigest =>
        if invalidPoint.digest = vertexDigest then .ret (.invalid point)
        else .cont true
      | none => .ret (.invalid point)
    else .ret (.invalid point)
  | .notExists notExistsId =>
    if prevLoc = notExistsId.location then
      match provenVertex with
      | some vertexDigest =>
        if notExistsId.digest = vertexDigest then .ret (.invalid point)
        else .cont isSuspicious
      | none => .cont isSuspicious
    else .ret (.invalid point)

/-- The `check_deps` loop (lines 239-321) over the list of resolved
dependency outcomes, threading the equivocation flag; an exhausted list
yields `Suspicious` or `Trusted`. -/
def checkDepsFrom (env : Env) (point : Point) :
    Bool → List DagPoint → Option DagPoint
  | isSusp, [] => some (if isSusp then .suspicious point else .trusted point)
  | isSusp, dep :: rest =>
    match checkDepStep env point dep isSusp with
    | .ret d => some d
    | .panic => none
    | .cont s => checkDepsFrom env point s rest

/-- `Verifier::check_deps` (lines 216-321): the loop starting with a clear
equivocation flag.  The unordered completion of the dependency futures is
abstracted by the list order (the outcome is order-insensitive: every early
exit returns the same `Invalid` verdict and the flag is monotone). -/
def checkDeps (env : Env) (point : Point) (deps : List DagPoint) :
    Option DagPoint :=
  checkDepsFrom env point false deps

lemma checkDepStep_ret_invalid (env : Env) (point : Point) (dep : DagPoint)
    (s : Bool) (d : DagPoint) (h : checkDepStep env point dep s = .ret d) :
    d = .invalid point := by
  unfold checkDepStep at h
  cases dep <;> simp only at h <;>
    (repeat' split at h) <;> simp_all

lemma checkDepStep_no_panic (env : Env) (point : Point) (dep : DagPoint)
    (s : Bool) : checkDepStep env point dep s ≠ .panic := by
  unfold checkDepStep
  cases dep with
  | invalid q => simp only; (repeat' split) <;> simp_all
  | notExists q => simp only; (repeat' split) <;> simp_all
  | trusted valid | suspicious valid =>
    simp only
    set prevLoc : Location := ⟨point.round - 1, point.author⟩ with hprev
    by_cases hloc : prevLoc = valid.body.location
    · rw [if_pos hloc]
      cases hpf : point.body.proof with
      | none =>
        simp only [Option.map_none']
        simp_all
      | some proof =>
        simp only [Option.map_some']
        by_cases hd : valid.digest = proof.digest
        · rw [if_pos hd]
          have hok : isProofOk env point valid ≠ none := by
            unfold isProofOk
            have hauthor : point.author = valid.author := by
              have := congrArg Location.author hloc
              simpa [hprev, Point.author] using this
            have hround : point.round - 1 = valid.round := by
              have := congrArg Location.round hloc
              simpa [hprev, Point.round] using this
            rw [if_neg (by simp [hauthor]), if_neg (by simp [hround])]
            simp only [hpf]
            rw [if_neg (by simp [hd])]
            split <;> simp
          cases hv : isProofOk env point valid with
          | none => exact absurd hv hok
          | some b =>
            cases b <;> simp only [hv] <;> (repeat' split) <;> simp_all
        · rw [if_neg hd]
          (repeat' split) <;> simp_all
    · rw [if_neg hloc]
      (repeat' split) <;> simp_all

lemma checkDepsFrom_ne_none (env : Env) (point : Point) (deps : List DagPoint)
    (s : Bool) : checkDepsFrom env point s deps ≠ none := by
  induction deps generalizing s with
  | nil => simp [checkDepsFrom]
  | cons dep rest ih =>
    unfold checkDepsFrom
    cases hstep : checkDepStep env point dep s with
    | ret d => simp
    | panic => exact absurd hstep (checkDepStep_no_panic env point dep s)
    | cont s' => exact ih s'

lemma checkDepsFrom_invalid_of_mem (env : Env) (point : Point)
    (deps : List DagPoint) (s : Bool) (dep : DagPoint) (hmem : dep ∈ deps)
    (hstep : ∀ s', checkDepStep env point dep s' = .ret (.invalid point)) :
    checkDepsFrom env point s deps = some (.invalid point) := by
  induction deps generalizing s with
  | nil => cases hmem
  | cons hd rest ih =>
    unfold checkDepsFrom
    rcases List.mem_cons.mp hmem with heq | htail
    · subst heq
      rw [hstep s]
    · cases h : checkDepStep env point hd s with
      | ret d =>
        have := checkDepStep_ret_invalid env point hd s d h
        subst this
        rfl
      | panic => exact absurd h (checkDepStep_no_panic env point hd s)
      | cont s' => exact ih s' htail


/-! ### Round chain and `Verifier::validate`, `verifier.rs` lines 50-163 -/

/-- `AnchorStage` (from `dag/anchor_stage.rs`, as matched by the embedded
sources): the round's leader for the proof or trigger role. -/
inductive AnchorStage
  | proofStage (leader : Nat)
  | triggerStage (leader : Nat)
deriving Repr, DecidableEq

/-- A retained round of the Round Ledger as seen by the validation path:
round number, anchor stage, and the previous round if its weak link still
upgrades (`None` once the round below fell out of the retained window).
Locations are not needed here: the dependency futures they hold are
abstracted into the resolved-outcome list fed to `checkDeps`. -/
inductive DagRoundChain
  | bottom (round : Nat) (stage : Option AnchorStage)
  | node (round : Nat) (stage : Option AnchorStage) (prevRound : DagRoundChain)
deriving Repr, DecidableEq

def DagRoundChain.round : DagRoundChain → Nat
  | .bottom r _ => r
  | .node r _ _ => r

def DagRoundChain.stage : DagRoundChain → Option AnchorStage
  | .bottom _ s => s
  | .node _ s _ => s

/-- The upgrade of the weak `prev` link: `none` when the round below fell
out of the retained window (a `bottom` round). -/
def DagRoundChain.prev : DagRoundChain → Option DagRoundChain
  | .bottom _ _ => none
  | .node _ _ p => some p

/-- Result of `DagRound::scan`: the round found, `None` (fell off the
retained window), or a panic (scanning forward, or a gap in the chain). -/
inductive ScanRes
  | found (r : DagRoundChain)
  | missing
  | panicScan
deriving Repr, DecidableEq

/-- The backward walk inside `DagRound::scan` (`dag_round.rs` lines
286-300): upgrade the previous round; a predecessor below the target is a
gap panic; equal is found; greater keeps walking. -/
def scanGo : DagRoundChain → Nat → ScanRes
  | .bottom _ _, _ => .missing
  | .node _ _ q, r =>
    if q.round < r then .panicScan
    else if q.round = r then .found q
    else scanGo q r

/-- `DagRound::scan` (`dag_round.rs` lines 277-301): asserts the target is
not a future round, returns itself on equality, else walks backward. -/
def scan (dr : DagRoundChain) (r : Nat) : ScanRes :=
  if dr.round < r then .panicScan
  else if dr.round = r then .found dr
  else scanGo dr r

/-- `Verifier::is_self_links_ok` (`verifier.rs` lines 103-124): with no
anchor stage nobody may link to self (except at genesis); with a stage, the
leader must use `ToSelf` on the matching link and everyone else must not. -/
def isSelfLinksOk (p : Point) (dagRound : DagRoundChain) : Bool :=
  match dagRound.stage with
  | none =>
    decide ((p.body.anchor_proof ≠ Link.toSelf
              ∧ p.body.anchor_trigger ≠ Link.toSelf)
            ∨ p.round = genesisRound)
  | some (.proofStage leader) =>
    decide ((leader = p.author) ↔ (p.body.anchor_proof = Link.toSelf))
  | some (.triggerStage leader) =>
    decide ((leader = p.author) ↔ (p.body.anchor_trigger = Link.toSelf))

/-- `Verifier::add_anchor_link_if_ok` (`verifier.rs` lines 126-163): scan
to the linked round (`expect` panic if it fell off the window → `none`);
genesis links are fine; otherwise the linked round's stage must match the
link field with the linked author as leader.  The dependency it may push is
part of the abstracted resolved-outcome list. -/
def addAnchorLinkIfOk (p : Point) (dagRound : DagRoundChain) (f : LinkField) :
    Option Bool :=
  let pointId := p.anchorId f
  match scan dagRound pointId.location.round with
  | .found r =>
    if r.round = genesisRound then some true
    else
      match r.stage, f with
      | some (.proofStage leader), .proof =>
        if leader = pointId.location.author then some true else some false
      | some (.triggerStage leader), .trigger =>
        if leader = pointId.location.author then some true else some false
      | _, _ => some false
  | _ => none

/-- The short-circuit conjunction of the three link checks in
`Verifier::validate` (lines 69-84); a panic in one of the anchor-link
scans propagates. -/
def linkChecks (p : Point) (r0 : DagRoundChain) : Option Bool :=
  if isSelfLinksOk p r0 then
    match addAnchorLinkIfOk p r0 .proof with
    | none => none
    | some false => some false
    | some true => addAnchorLinkIfOk p r0 .trigger
  else some false

/-- `Verifier::validate` (lines 50-101): a dead weak round handle resolves
to `NotExists`; a round mismatch is a coding-error panic; failing link
checks give `Invalid`; a missing round below gives `Trusted` by default;
otherwise the gathered dependencies (abstracted as the resolved-outcome
list `deps`) are awaited and checked. -/
def validate (env : Env) (p : Point) (weakR0 : Option DagRoundChain)
    (deps : List DagPoint) : Option DagPoint :=
  match weakR0 with
  | none => some (.notExists p.id)
  | some r0 =>
    if p.round ≠ r0.round then none
    else
      match linkChecks p r0 with
      | none => none
      | some false => some (.invalid p)
      | some true =>
        match r0.prev with
        | none => some (.trusted p)
        | some _ => checkDeps env p deps

/-- `Producer::get_time` (`producer.rs` lines 196-244).  The awaited lookups
are supplied as arguments: `prevValid` is the outcome of
`finished_round.valid_point_exact(local_id, prev_point.digest)` and
`anchorProofPoint` the outcome of `finished_round.valid_point(to)` for an
indirect anchor-proof link.  `none` models the panic
("last anchor proof must stay in DAG until its payload is committed"). -/
def getTime (now : Nat) (prevValid : Option Point) (anchorProof : Link)
    (prevPoint : Option PrevPoint) (includes witnessList : List Point)
    (anchorProofPoint : Option Point) : Option Nat :=
  let time := now
  let time :=
    match prevPoint, prevValid with
    | some _, some validPoint => max validPoint.body.time time
    | _, _ => time
  match anchorProof with
  | .toSelf => some time
  | .direct through =>
    let selected :=
      match through with
      | .includes peerId => (peerId, includes)
      | .witness peerId => (peerId, witnessList)
    match selected.2.find? (fun pt => pt.author = selected.1) with
    | some pt => some (max pt.body.time time)
    | none => some time
  | .indirect _ _ =>
    if prevPoint.isNone then
      match anchorProofPoint with
      | some validPoint => some (max validPoint.body.time time)
      | none => none
    else some time

/-! ### Round ledger insertion, `dag_round.rs` lines 146-170 -/

/-- An entry of a location's `versions` map.  `localTrusted` is modelled
from the spec: `DagPointFuture::new_local_trusted` (not under `src/`)
resolves the slot immediately as the own trusted point, with no validation
task; other entry kinds are opaque here. -/
inductive VersionEntry
  | localTrusted (p : Point)
  | otherEntry (tag : Nat)
deriving Repr, DecidableEq

/-- A `DagLocation`'s `versions`: digest → entry. -/
structure DagLocation where
  versions : List (Nat × VersionEntry)
deriving Repr, DecidableEq

/-- A round as needed by `insert_exact_sign`: its number and the location
map (peer → location), materialized for every committee member when the
round is created. -/
structure DagRoundSlot where
  round : Nat
  locations : List (Nat × DagLocation)
deriving Repr, DecidableEq

/-- Association-list update: replaces the value at a present key. -/
def aupdate {α : Type} (k : Nat) (v : α) : List (Nat × α) → List (Nat × α)
  | [] => []
  | kv :: rest => if kv.1 = k then (k, v) :: rest else kv :: aupdate k v rest

/-- `DagRound::insert_exact_sign` (lines 146-170): asserts the point's
round matches the slot (`none` on mismatch); `edit` panics when the
author's location is absent (`none`); a pre-existing entry for the same
digest is the "local point must be created only once" panic (`none`);
otherwise the fresh local-trusted entry is inserted. -/
def insertExactSign (dr : DagRoundSlot) (p : Point) : Option DagRoundSlot :=
  if p.round ≠ dr.round then none
  else
    match alookup p.author dr.locations with
    | none => none
    | some loc =>
      match alookup p.digest loc.versions with
      | some _ => none
      | none =>
        some { dr with
                locations := aupdate p.author
                  ⟨(p.digest, .localTrusted p) :: loc.versions⟩ dr.locations }

/-! ### Broadcast admission gate, `broadcast_filter.rs` lines 93-229 -/

/-- `ConsensusEvent` (from `intercom/broadcast/dto.rs`, as constructed by
the embedded file): a verified point, an invalid verdict, or a forward
marker for a flushed round. -/
inductive ConsensusEvent
  | verified (p : Point)
  | invalidEvent (d : DagPoint)
  | forward (round : Nat)
deriving Repr, DecidableEq

/-- `BroadcastResponse` returned to the broadcasting peer. -/
inductive BroadcastResponse
  | accepted
  | rejected
  | tryLater
deriving Repr, DecidableEq

/-- Key-ordered association-list insert (`BTreeMap::insert` semantics,
also used for the concurrent maps, whose iteration order the embedded
code never relies on). -/
def binsert {α : Type} (k : Nat) (v : α) : List (Nat × α) → List (Nat × α)
  | [] => [(k, v)]
  | kv :: rest =>
    if k < kv.1 then (k, v) :: kv :: rest
    else if k = kv.1 then (k, v) :: rest
    else kv :: binsert k v rest

/-- Association-list key removal (`remove` on the author map). -/
def aremove {α : Type} (k : Nat) (l : List (Nat × α)) : List (Nat × α) :=
  l.filter fun kv => kv.1 ≠ k

/-- Per-round buffer entry of the gate: the round's committee size and the
author → digest → event map. -/
def RoundEntry : Type := Nat × List (Nat × List (Nat × ConsensusEvent))

instance : DecidableEq RoundEntry := by
  unfold RoundEntry
  infer_instance

/-- State of `BroadcastFilterInner`: highest round seen per peer, the
per-round buffers, and the gate's local round pointer
(`current_dag_round`). -/
structure BroadcastFilterState where
  lastByPeer : List (Nat × Nat)
  byRound : List (Nat × RoundEntry)
  currentDagRound : Nat
deriving DecidableEq

/-- Events flushed for one buffered round (`advance_round` lines 219-226):
the forward marker, then every buffered event, author by author. -/
def flushEntry (r : Nat) (entry : RoundEntry) : List ConsensusEvent :=
  .forward r :: (entry.2.map fun av => av.2.map (·.2)).flatten

/-- `BroadcastFilterInner::advance_round` (lines 198-229): advance the
pointer only forward (`fetch_update`), flush the buffers of the new round
and the one before it (in that order), drop every buffered round that is
not strictly above the new round.  Returns the new state and the flushed
output events. -/
def bfAdvance (st : BroadcastFilterState) (newRound : Nat) :
    BroadcastFilterState × List ConsensusEvent :=
  if st.currentDagRound < newRound then
    let old := st.currentDagRound
    let entryPrev :=
      if old < newRound then alookup (newRound - 1) st.byRound else none
    let entryNew := alookup newRound st.byRound
    let outs :=
      ((entryPrev.map (flushEntry (newRound - 1))).toList
        ++ (entryNew.map (flushEntry newRound)).toList).flatten
    ({ lastByPeer := st.lastByPeer
       byRound :=
        ((aremove newRound (aremove (newRound - 1) st.byRound)).filter
          fun kv => newRound < kv.1)
       currentDagRound := newRound },
      outs)
  else (st, [])

/-- `BroadcastFilterInner::add` (lines 93-195).  Returns the state after
the call, the `BroadcastResponse`, and the events sent to the output
channel during the call.  The `Verifier::verify` call is the phase-1
embedding above with its environment. -/
def bfEvent (env : Env) (p : Point) : ConsensusEvent :=
  match verify env p with
  | .ok _ => .verified p
  | .error d => .invalidEvent d

/-- The round entry the gate uses for a buffered round: the existing buffer
entry if present, else a fresh one for the round's committee
(`or_try_insert_with`, lines 173-177); `none` when the committee size is
not yet known (`NodeCount::try_from` failed). -/
def bfRoundEntry (env : Env) (st : BroadcastFilterState) (r : Nat) :
    Option RoundEntry :=
  match alookup r st.byRound with
  | some entry => some entry
  | none =>
    match nodeCountTryFrom (env.peersFor r).length with
    | none => none
    | some nc => some (nc, [])

def bfAdd (env : Env) (st : BroadcastFilterState) (p : Point) :
    BroadcastFilterState × BroadcastResponse × List ConsensusEvent :=
  let dagRound := st.currentDagRound
  let ev : ConsensusEvent := bfEvent env p
  if p.round ≤ dagRound then
    let resp :=
      match ev with
      | .invalidEvent _ => BroadcastResponse.rejected
      | _ =>
        if dagRound - 1 ≤ p.round then BroadcastResponse.accepted
        else BroadcastResponse.rejected
    (st, resp, [ev])
  else
    let old? := alookup p.author st.lastByPeer
    let outdated : Option Nat :=
      match old? with
      | some o => if o < p.round ∧ dagRound ≤ o then some o else none
      | none => none
    let stored : Nat :=
      match old? with
      | some o => if o < p.round then p.round else o
      | none => p.round
    let st1 :=
      { st with lastByPeer := binsert p.author stored st.lastByPeer }
    if p.round < stored then (st1, .rejected, [])
    else
      let st2 :=
        match outdated with
        | some d =>
          match alookup d st1.byRound with
          | some entry =>
            { st1 with byRound :=
                binsert d (entry.1, aremove p.author entry.2) st1.byRound }
          | none => st1
        | none => st1
      let entry? : Option RoundEntry :=
        match alookup p.round st2.byRound with
        | some entry => some entry
        | none =>
          match nodeCountTryFrom (env.peersFor p.round).length with
          | none => none
          | some nc => some (nc, [])
      match entry? with
      | none => (st2, .tryLater, [])
      | some (nc, authors) =>
        let sub := (alookup p.author authors).getD []
        let authorsNew := binsert p.author (binsert p.digest ev sub) authors
        let st3 :=
          { st2 with byRound := binsert p.round (nc, authorsNew) st2.byRound }
        if authorsNew.length < reliableMinority nc then (st3, .tryLater, [])
        else
          let advanced := bfAdvance st3 p.round
          (advanced.1, .accepted, advanced.2)

/-! ### Concrete fixtures used by witnesses and counterexamples -/

/-- A point with empty maps, no proof and `ToSelf` links, at the given
round, author and digest. -/
def simplePoint (r a d : Nat) : Point :=
  ⟨⟨⟨r, a⟩, 0, 0, [], none, [], [], .toSelf, .toSelf⟩, d⟩

/-- An environment where every external check succeeds and committees are
empty. -/
def envTrivial : Env := ⟨fun _ => true, fun _ => true, fun _ => [], fun _ _ _ => true⟩

/-- A committee of seven where phase-1 verification fails for every point
(integrity rejected). -/
def envSevenBad : Env :=
  ⟨fun _ => false, fun _ => true, fun _ => [1, 2, 3, 4, 5, 6, 7], fun _ _ _ => true⟩

/-- A committee of three where phase-1 verification succeeds for suitable
points. -/
def envThreeGood : Env :=
  ⟨fun _ => true, fun _ => true, fun _ => [1, 2, 3], fun _ _ _ => true⟩

/-! ## Theorems -/

/-- C9: with a buffer byte budget of 1000 and a batch budget of 1000, adding a
600-byte blob and then a 500-byte blob does NOT evict the 600-byte blob: the
eviction scan subtracts its length from `data_bytes` but `take_while` counts
zero elements, so `drain(..0)` removes nothing and the deque keeps both blobs
while `data_bytes` drops to 500.  The following `fetch(only_fresh = true)`
returns the 600-byte blob (not the 500-byte one), and the second
`fetch(only_fresh = true)` hits the `checked_sub` expectation
("decrease buffered data size on commit offset"), i.e. the code panics.
This contradicts the specified scenario (evict the oldest blob, return the
500-byte blob once, then an empty batch) and breaks the code's own
`checked_sub(..).expect(..)` accounting assumptions, evidencing a code bug. -/
theorem c9_input_buffer_eviction_code_bug :
    (ibAdd 1000 ⟨[], 0, 0⟩ 600 = some ⟨[600], 600, 0⟩)
    ∧ (ibAdd 1000 ⟨[600], 600, 0⟩ 500 = some ⟨[600, 500], 500, 0⟩)
    ∧ (ibFetchInner 1000 ⟨[600, 500], 500, 0⟩ true
        = some ([600], ⟨[600, 500], 500, 1⟩))
    ∧ (ibFetchInner 1000 ⟨[600, 500], 500, 1⟩ true = none) := by
  decide

/-- C3: `Verifier::verify` yields a `NotExists` verdict (naming the point's
id) exactly when the integrity check fails; when integrity passes it yields
`Invalid` exactly when well-formedness or the signer-membership check fails;
it succeeds exactly when all three pass; and it always resolves to one of
these verdicts (totality — the embedding is a total function, so no panic
is reachable). -/
theorem c3_verify_verdicts (env : Env) (p : Point) :
    (verify env p = .error (.notExists p.id) ↔ env.integrityOk p = false)
    ∧ (verify env p = .error (.invalid p)
        ↔ env.integrityOk p = true
          ∧ (env.wellFormed p && isListOfSignersOk env p) = false)
    ∧ (verify env p = .ok ()
        ↔ env.integrityOk p = true
          ∧ (env.wellFormed p && isListOfSignersOk env p) = true)
    ∧ (verify env p = .ok () ∨ ∃ d, verify env p = .error d) := by
  unfold verify
  by_cases h1 : env.integrityOk p
  · by_cases h2 : (env.wellFormed p && isListOfSignersOk env p)
    · simp [h1, h2]
    · simp [h1, h2, eq_false_of_ne_true h2]
  · simp [h1, eq_false_of_ne_true h1]

/-- C5: a non-genesis point whose `includes` map has fewer entries than the
majority of the round−1 committee is classified `Invalid` by phase-1
verification (given its integrity passes, which by C3 is the precondition
for the `Invalid` classification); and `Producer::includes` panics rather
than return a selection of trusted round−1 points below that majority:
it returns a selection exactly when the selection reaches the majority,
and any returned selection is the trusted-and-signable one. -/
theorem c5_includes_majority (env : Env) (p : Point) (nodeCount : Nat)
    (locs : List (Nat × LocState))
    (hint : env.integrityOk p = true)
    (hgen : p.round ≠ genesisRound)
    (hlen : p.body.includes.length < majority (env.peersFor (p.round - 1)).length) :
    verify env p = .error (.invalid p)
    ∧ (producerIncludes nodeCount locs = none
        ↔ (selectTrusted locs).length < majority nodeCount)
    ∧ (∀ sel, producerIncludes nodeCount locs = some sel →
        sel = selectTrusted locs ∧ majority nodeCount ≤ sel.length) := by
  refine ⟨?_, ?_, ?_⟩
  · have hsig : isListOfSignersOk env p = false := by
      simp only [isListOfSignersOk]
      rw [if_neg hgen]
      by_cases hw :
          (p.body.witness.any
            fun pd => ¬ (env.peersFor (p.round - 2)).contains pd.1) = true
      · rw [if_pos hw]
      · rw [if_neg hw, if_pos hlen]
    unfold verify
    simp [hint, hsig]
  · unfold producerIncludes
    split <;> simp_all
  · intro sel hsel
    unfold producerIncludes at hsel
    split at hsel
    · exact absurd hsel (by simp)
    · cases hsel
      exact ⟨rfl, Nat.le_of_not_lt (by assumption)⟩

lemma scan_self (r0 : DagRoundChain) (t : Nat) (h : r0.round = t) :
    scan r0 t = .found r0 := by
  unfold scan
  rw [if_neg (by omega), if_pos h]

lemma anchorId_toSelf (p : Point) (f : LinkField)
    (h : p.anchorLink f = Link.toSelf) : p.anchorId f = p.id := by
  simp only [Point.anchorId, Point.anchorLinkId, h]

lemma addAnchorLink_of_toSelf (p : Point) (r0 : DagRoundChain) (f : LinkField)
    (hl : p.anchorLink f = Link.toSelf) (hr : r0.round = p.round)
    (hg : p.round ≠ genesisRound) :
    addAnchorLinkIfOk p r0 f =
      match r0.stage, f with
      | some (.proofStage leader), .proof =>
        if leader = p.author then some true else some false
      | some (.triggerStage leader), .trigger =>
        if leader = p.author then some true else some false
      | _, _ => some false := by
  have hr' : r0.round = p.body.location.round := hr
  have hg' : ¬ r0.round = genesisRound := by rw [hr]; exact hg
  simp only [addAnchorLinkIfOk, anchorId_toSelf p f hl, Point.id]
  rw [scan_self r0 p.body.location.round hr']
  simp only
  rw [if_neg hg']
  rcases r0.stage with _ | st
  · rfl
  · cases st <;> cases f <;> rfl

/-- C10: a weak round handle that can no longer be upgraded (the local DAG
moved past the point's round) makes `Verifier::validate` return `NotExists`
for the point — never `Trusted` — for every possible dependency-outcome
list, i.e. without examining dependencies. -/
theorem c10_dead_weak_round_not_exists (env : Env) (p : Point)
    (deps : List DagPoint) :
    validate env p none deps = some (.notExists p.id)
    ∧ validate env p none deps ≠ some (.trusted p) := by
  refine ⟨rfl, ?_⟩
  simp [validate]

/-- Witness for C5 at a concrete input: committee of 4 at every round,
a round-1 point with an empty includes map (0 < majority 4 = 3), and an
empty location list with node count 4. -/
theorem c5_includes_majority_witness :
    verify
        ⟨fun _ => true, fun _ => true, fun _ => [1, 2, 3, 4], fun _ _ _ => true⟩
        ⟨⟨⟨1, 1⟩, 0, 0, [], none, [], [], .toSelf, .toSelf⟩, 7⟩
      = .error (.invalid ⟨⟨⟨1, 1⟩, 0, 0, [], none, [], [], .toSelf, .toSelf⟩, 7⟩)
    ∧ (producerIncludes 4 [] = none ↔ (selectTrusted []).length < majority 4)
    ∧ (∀ sel, producerIncludes 4 [] = some sel →
        sel = selectTrusted [] ∧ majority 4 ≤ sel.length) :=
  c5_includes_majority
    ⟨fun _ => true, fun _ => true, fun _ => [1, 2, 3, 4], fun _ _ _ => true⟩
    ⟨⟨⟨1, 1⟩, 0, 0, [], none, [], [], .toSelf, .toSelf⟩, 7⟩ 4 []
    (by decide) (by decide) (by decide)

/-- C4: outside the genesis round, a point passes the anchor self-link
checks with a `ToSelf` link on a role exactly when its author is the
round's designated leader for that role: a passing `ToSelf` proof (resp.
trigger) link forces the round's stage to name the author as proof (resp.
trigger) leader; a `ToSelf` link by any other author makes `validate`
return `Invalid` (for the trigger role, provided the independent proof-link
scan does not panic, which the checks sequence first), and a designated
leader whose matching link is not `ToSelf` also gets `Invalid`. -/
theorem c4_to_self_iff_leader (p : Point) (r0 : DagRoundChain)
    (hr : r0.round = p.round) (hg : p.round ≠ genesisRound) :
    (p.body.anchor_proof = Link.toSelf → linkChecks p r0 = some true →
      r0.stage = some (.proofStage p.author))
    ∧ (p.body.anchor_trigger = Link.toSelf → linkChecks p r0 = some true →
      r0.stage = some (.triggerStage p.author))
    ∧ (∀ env deps, p.body.anchor_proof = Link.toSelf →
      r0.stage ≠ some (.proofStage p.author) →
      validate env p (some r0) deps = some (.invalid p))
    ∧ (∀ env deps, p.body.anchor_trigger = Link.toSelf →
      r0.stage ≠ some (.triggerStage p.author) →
      linkChecks p r0 ≠ none →
      validate env p (some r0) deps = some (.invalid p))
    ∧ (∀ env deps leader, r0.stage = some (.proofStage leader) →
      leader = p.author → p.body.anchor_proof ≠ Link.toSelf →
      validate env p (some r0) deps = some (.invalid p))
    ∧ (∀ env deps leader, r0.stage = some (.triggerStage leader) →
      leader = p.author → p.body.anchor_trigger ≠ Link.toSelf →
      validate env p (some r0) deps = some (.invalid p)) := by
  have hval : ∀ env deps, linkChecks p r0 = some false →
      validate env p (some r0) deps = some (.invalid p) := by
    intro env deps hlc
    simp [validate, hr, hlc]
  have h1 : p.body.anchor_proof = Link.toSelf → linkChecks p r0 = some true →
      r0.stage = some (.proofStage p.author) := by
    intro hp hpass
    unfold linkChecks at hpass
    by_cases hsl : isSelfLinksOk p r0
    · rw [if_pos hsl, addAnchorLink_of_toSelf p r0 .proof hp hr hg] at hpass
      rcases hst : r0.stage with _ | st
      · rw [hst] at hpass; simp at hpass
      · rcases st with l | l
        · rw [hst] at hpass
          simp only at hpass
          by_cases hl : l = p.author
          · rw [hl]
          · rw [if_neg hl] at hpass; simp at hpass
        · rw [hst] at hpass; simp at hpass
    · rw [if_neg hsl] at hpass; simp at hpass
  have h2 : p.body.anchor_trigger = Link.toSelf → linkChecks p r0 = some true →
      r0.stage = some (.triggerStage p.author) := by
    intro ht hpass
    unfold linkChecks at hpass
    by_cases hsl : isSelfLinksOk p r0
    · rw [if_pos hsl] at hpass
      cases hap : addAnchorLinkIfOk p r0 .proof with
      | none => rw [hap] at hpass; simp at hpass
      | some b =>
        cases b with
        | false => rw [hap] at hpass; simp at hpass
        | true =>
          rw [hap] at hpass
          simp only at hpass
          rw [addAnchorLink_of_toSelf p r0 .trigger ht hr hg] at hpass
          rcases hst : r0.stage with _ | st
          · rw [hst] at hpass; simp at hpass
          · rcases st with l | l
            · rw [hst] at hpass; simp at hpass
            · rw [hst] at hpass
              simp only at hpass
              by_cases hl : l = p.author
              · rw [hl]
              · rw [if_neg hl] at hpass; simp at hpass
    · rw [if_neg hsl] at hpass; simp at hpass
  refine ⟨h1, h2, ?_, ?_, ?_, ?_⟩
  · intro env deps hp hnot
    refine hval env deps ?_
    unfold linkChecks
    by_cases hsl : isSelfLinksOk p r0
    · rw [if_pos hsl, addAnchorLink_of_toSelf p r0 .proof hp hr hg]
      rcases hst : r0.stage with _ | st
      · rfl
      · rcases st with l | l
        · have hl : l ≠ p.author := by
            intro h
            exact hnot (by rw [hst, h])
          simp only
          rw [if_neg hl]
        · rfl
    · rw [if_neg hsl]
  · intro env deps ht hnot hnp
    cases hlc : linkChecks p r0 with
    | none => exact absurd hlc hnp
    | some b =>
      cases b with
      | false => exact hval env deps hlc
      | true => exact absurd (h2 ht hlc) hnot
  · intro env deps leader hst hl hp
    refine hval env deps ?_
    have hsl : isSelfLinksOk p r0 = false := by
      simp only [isSelfLinksOk, hst]
      simp [hl, hp]
    unfold linkChecks
    rw [hsl]
    simp
  · intro env deps leader hst hl ht
    refine hval env deps ?_
    have hsl : isSelfLinksOk p r0 = false := by
      simp only [isSelfLinksOk, hst]
      simp [hl, ht]
    unfold linkChecks
    rw [hsl]
    simp

/-- Witness for C4 at a concrete input: round 5, a proof-stage round whose
leader is the point's author 1, the point using `ToSelf` on both links. -/
theorem c4_to_self_iff_leader_witness :
    ((simplePoint 5 1 3).body.anchor_proof = Link.toSelf →
      linkChecks (simplePoint 5 1 3) (.bottom 5 (some (.proofStage 1))) = some true →
      DagRoundChain.stage (.bottom 5 (some (.proofStage 1)))
        = some (.proofStage (simplePoint 5 1 3).author))
    ∧ ((simplePoint 5 1 3).body.anchor_trigger = Link.toSelf →
      linkChecks (simplePoint 5 1 3) (.bottom 5 (some (.proofStage 1))) = some true →
      DagRoundChain.stage (.bottom 5 (some (.proofStage 1)))
        = some (.triggerStage (simplePoint 5 1 3).author))
    ∧ (∀ env deps, (simplePoint 5 1 3).body.anchor_proof = Link.toSelf →
      DagRoundChain.stage (.bottom 5 (some (.proofStage 1)))
        ≠ some (.proofStage (simplePoint 5 1 3).author) →
      validate env (simplePoint 5 1 3) (some (.bottom 5 (some (.proofStage 1)))) deps
        = some (.invalid (simplePoint 5 1 3)))
    ∧ (∀ env deps, (simplePoint 5 1 3).body.anchor_trigger = Link.toSelf →
      DagRoundChain.stage (.bottom 5 (some (.proofStage 1)))
        ≠ some (.triggerStage (simplePoint 5 1 3).author) →
      linkChecks (simplePoint 5 1 3) (.bottom 5 (some (.proofStage 1))) ≠ none →
      validate env (simplePoint 5 1 3) (some (.bottom 5 (some (.proofStage 1)))) deps
        = some (.invalid (simplePoint 5 1 3)))
    ∧ (∀ env deps leader,
      DagRoundChain.stage (.bottom 5 (some (.proofStage 1)))
        = some (.proofStage leader) →
      leader = (simplePoint 5 1 3).author →
      (simplePoint 5 1 3).body.anchor_proof ≠ Link.toSelf →
      validate env (simplePoint 5 1 3) (some (.bottom 5 (some (.proofStage 1)))) deps
        = some (.invalid (simplePoint 5 1 3)))
    ∧ (∀ env deps leader,
      DagRoundChain.stage (.bottom 5 (some (.proofStage 1)))
        = some (.triggerStage leader) →
      leader = (simplePoint 5 1 3).author →
      (simplePoint 5 1 3).body.anchor_trigger ≠ Link.toSelf →
      validate env (simplePoint 5 1 3) (some (.bottom 5 (some (.proofStage 1)))) deps
        = some (.invalid (simplePoint 5 1 3))) :=
  c4_to_self_iff_leader (simplePoint 5 1 3) (.bottom 5 (some (.proofStage 1)))
    (by decide) (by decide)

/-- C6 counterexample: a round-5 point by author 1 using `ToSelf` links
while the round's stage designates peer 2 (not the author) as proof
leader, validated against a round handle whose round below is no longer
retained.  The point passes phase-1 verification in this environment and
its round matches the handle, so the claim says `validate` returns
`Trusted` by default; the code first runs the self-link/anchor-link checks
and returns `Invalid`. -/
theorem c6_counterexample :
    verify envThreeGood
        ⟨⟨⟨5, 1⟩, 0, 0, [], none, [(1, 0)], [], .toSelf, .toSelf⟩, 3⟩ = .ok ()
    ∧ (DagRoundChain.bottom 5 (some (.proofStage 2))).prev = none
    ∧ validate envThreeGood
        ⟨⟨⟨5, 1⟩, 0, 0, [], none, [(1, 0)], [], .toSelf, .toSelf⟩, 3⟩
        (some (.bottom 5 (some (.proofStage 2)))) []
      = some (.invalid ⟨⟨⟨5, 1⟩, 0, 0, [], none, [(1, 0)], [], .toSelf, .toSelf⟩, 3⟩)
    ∧ validate envThreeGood
        ⟨⟨⟨5, 1⟩, 0, 0, [], none, [(1, 0)], [], .toSelf, .toSelf⟩, 3⟩
        (some (.bottom 5 (some (.proofStage 2)))) []
      ≠ some (.trusted ⟨⟨⟨5, 1⟩, 0, 0, [], none, [(1, 0)], [], .toSelf, .toSelf⟩, 3⟩) := by
  exact ⟨rfl, rfl, by decide, by decide⟩

/-- C6 (amended): for a point whose round matches the round handle and
which passes the self-link and anchor-link checks, if the round below is no
longer retained then `validate` returns `Trusted`, for every possible
dependency-outcome list — no dependency is gathered or awaited (under a
dead round below, passing anchor-link checks also implies no anchor
dependency was registered, as any scan below the point's round would have
panicked instead of passing). -/
theorem c6_trusted_when_round_below_dropped (env : Env) (p : Point)
    (r0 : DagRoundChain) (deps : List DagPoint)
    (hr : r0.round = p.round) (hprev : r0.prev = none)
    (hlinks : linkChecks p r0 = some true) :
    validate env p (some r0) deps = some (.trusted p) := by
  simp [validate, hr, hlinks, hprev]

/-- Witness for C6 at a concrete input: a genesis point over a bottom
genesis round. -/
theorem c6_trusted_when_round_below_dropped_witness :
    validate envTrivial (simplePoint 0 1 3) (some (.bottom 0 none)) []
      = some (.trusted (simplePoint 0 1 3)) :=
  c6_trusted_when_round_below_dropped envTrivial (simplePoint 0 1 3)
    (.bottom 0 none) [] (by decide) (by decide) (by decide)

lemma step_invalid_other_loc (env : Env) (point q : Point) (s : Bool)
    (h : (⟨point.round - 1, point.author⟩ : Location) ≠ q.body.location) :
    checkDepStep env point (.invalid q) s = .ret (.invalid point) := by
  simp only [checkDepStep]
  rw [if_neg h]

lemma step_invalid_no_proof (env : Env) (point q : Point) (s : Bool)
    (hp : point.body.proof = none) :
    checkDepStep env point (.invalid q) s = .ret (.invalid point) := by
  simp only [checkDepStep, hp, Option.map_none']
  split <;> rfl

lemma step_invalid_digest_match (env : Env) (point q : Point) (s : Bool)
    (pr : PrevPoint)
    (hl : (⟨point.round - 1, point.author⟩ : Location) = q.body.location)
    (hp : point.body.proof = some pr) (hd : q.digest = pr.digest) :
    checkDepStep env point (.invalid q) s = .ret (.invalid point) := by
  simp only [checkDepStep, hp, Option.map_some']
  rw [if_pos hl]
  rw [if_pos hd]

lemma step_notExists_other_loc (env : Env) (point : Point) (nid : PointId)
    (s : Bool)
    (h : (⟨point.round - 1, point.author⟩ : Location) ≠ nid.location) :
    checkDepStep env point (.notExists nid) s = .ret (.invalid point) := by
  simp only [checkDepStep]
  rw [if_neg h]

lemma step_notExists_digest_match (env : Env) (point : Point) (nid : PointId)
    (s : Bool) (pr : PrevPoint)
    (hl : (⟨point.round - 1, point.author⟩ : Location) = nid.location)
    (hp : point.body.proof = some pr) (hd : nid.digest = pr.digest) :
    checkDepStep env point (.notExists nid) s = .ret (.invalid point) := by
  simp only [checkDepStep, hp, Option.map_some']
  rw [if_pos hl]
  rw [if_pos hd]

lemma step_trusted_proof_fail (env : Env) (point v : Point) (s : Bool)
    (pr : PrevPoint)
    (hl : (⟨point.round - 1, point.author⟩ : Location) = v.body.location)
    (hp : point.body.proof = some pr) (hd : v.digest = pr.digest)
    (hpf : isProofOk env point v = some false) :
    checkDepStep env point (.trusted v) s = .ret (.invalid point) := by
  simp only [checkDepStep, hp, Option.map_some']
  rw [if_pos hl]
  rw [if_pos hd, hpf]

/-- C2 counterexample: a point whose proof names digest 0 at its previous
own location, with a single dependency resolved `Invalid` at exactly that
location but with a different digest (1).  The claim says any `Invalid`
dependency at the previous-round own location makes the verdict `Invalid`;
the code only marks equivocation and returns `Suspicious`. -/
theorem c2_counterexample :
    (simplePoint 4 1 1).body.location
      = (⟨(⟨⟨⟨5, 1⟩, 0, 0, [], some ⟨0, []⟩, [(1, 0)], [], .toSelf, .toSelf⟩,
            9⟩ : Point).round - 1,
          (⟨⟨⟨5, 1⟩, 0, 0, [], some ⟨0, []⟩, [(1, 0)], [], .toSelf, .toSelf⟩,
            9⟩ : Point).author⟩ : Location)
    ∧ checkDeps envTrivial
        ⟨⟨⟨5, 1⟩, 0, 0, [], some ⟨0, []⟩, [(1, 0)], [], .toSelf, .toSelf⟩, 9⟩
        [.invalid (simplePoint 4 1 1)]
      = some (.suspicious
          ⟨⟨⟨5, 1⟩, 0, 0, [], some ⟨0, []⟩, [(1, 0)], [], .toSelf, .toSelf⟩, 9⟩)
    ∧ checkDeps envTrivial
        ⟨⟨⟨5, 1⟩, 0, 0, [], some ⟨0, []⟩, [(1, 0)], [], .toSelf, .toSelf⟩, 9⟩
        [.invalid (simplePoint 4 1 1)]
      ≠ some (.invalid
          ⟨⟨⟨5, 1⟩, 0, 0, [], some ⟨0, []⟩, [(1, 0)], [], .toSelf, .toSelf⟩, 9⟩) := by
  decide

/-- C2 (amended): during `check_deps`, an `Invalid` or `NotExists`
dependency at a location other than the validated point's previous-round
own location always yields verdict `Invalid`; at the previous-round own
location it yields `Invalid` when its digest equals the proof's digest, or
— for an `Invalid` dependency — when the validated point carries no proof
(a non-matching digest there only marks equivocation, and a `NotExists`
with a non-matching digest or no proof is ignored). -/
theorem c2_bad_dependency_invalidates (env : Env) (point : Point)
    (deps : List DagPoint) :
    (∀ q : Point, DagPoint.invalid q ∈ deps →
      (⟨point.round - 1, point.author⟩ : Location) ≠ q.body.location →
      checkDeps env point deps = some (.invalid point))
    ∧ (∀ q : Point, DagPoint.invalid q ∈ deps →
      point.body.proof = none →
      checkDeps env point deps = some (.invalid point))
    ∧ (∀ (q : Point) (pr : PrevPoint), DagPoint.invalid q ∈ deps →
      (⟨point.round - 1, point.author⟩ : Location) = q.body.location →
      point.body.proof = some pr → q.digest = pr.digest →
      checkDeps env point deps = some (.invalid point))
    ∧ (∀ nid : PointId, DagPoint.notExists nid ∈ deps →
      (⟨point.round - 1, point.author⟩ : Location) ≠ nid.location →
      checkDeps env point deps = some (.invalid point))
    ∧ (∀ (nid : PointId) (pr : PrevPoint), DagPoint.notExists nid ∈ deps →
      (⟨point.round - 1, point.author⟩ : Location) = nid.location →
      point.body.proof = some pr → nid.digest = pr.digest →
      checkDeps env point deps = some (.invalid point)) := by
  refine ⟨?_, ?_, ?_, ?_, ?_⟩
  · intro q hmem h
    exact checkDepsFrom_invalid_of_mem env point deps false _ hmem
      fun s' => step_invalid_other_loc env point q s' h
  · intro q hmem hp
    exact checkDepsFrom_invalid_of_mem env point deps false _ hmem
      fun s' => step_invalid_no_proof env point q s' hp
  · intro q pr hmem hl hp hd
    exact checkDepsFrom_invalid_of_mem env point deps false _ hmem
      fun s' => step_invalid_digest_match env point q s' pr hl hp hd
  · intro nid hmem h
    exact checkDepsFrom_invalid_of_mem env point deps false _ hmem
      fun s' => step_notExists_other_loc env point nid s' h
  · intro nid pr hmem hl hp hd
    exact checkDepsFrom_invalid_of_mem env point deps false _ hmem
      fun s' => step_notExists_digest_match env point nid s' pr hl hp hd

/-- Witness for C2 (amended) at a concrete input: a single `Invalid`
dependency at an unrelated location (round 3, author 2) invalidates the
round-5 point. -/
theorem c2_bad_dependency_invalidates_witness :
    checkDeps envTrivial (simplePoint 5 1 9) [.invalid (simplePoint 3 2 1)]
      = some (.invalid (simplePoint 5 1 9)) :=
  (c2_bad_dependency_invalidates envTrivial (simplePoint 5 1 9)
      [.invalid (simplePoint 3 2 1)]).1
    (simplePoint 3 2 1) (by decide) (by decide)

/-- C7: for same-author points where the later point's proof names the
earlier point's digest (matching location), a smaller time on the later
point makes `is_proof_ok` return `false` without panicking, and through
`check_deps` the later point's verdict becomes `Invalid`; and
`Producer::get_time` returns a maximum that includes the own previous
point's time (when the previous point resolves as valid in the finished
round), so per-author time along trusted proof chains is non-decreasing. -/
theorem c7_time_monotonic (env : Env) (point v : Point) (deps : List DagPoint)
    (pr : PrevPoint) (vp : Point) (now : Nat) (ap : Link) (pp : PrevPoint)
    (incl wit : List Point) (app : Option Point)
    (hp : point.body.proof = some pr)
    (hl : v.body.location = ⟨point.round - 1, point.author⟩)
    (hd : v.digest = pr.digest)
    (htime : point.body.time < v.body.time)
    (hmem : DagPoint.trusted v ∈ deps) :
    isProofOk env point v = some false
    ∧ checkDeps env point deps = some (.invalid point)
    ∧ (∀ t, getTime now (some vp) ap (some pp) incl wit app = some t →
        vp.body.time ≤ t) := by
  have hauthor : point.author = v.author := by
    have := congrArg Location.author hl
    simp [Point.author] at this
    exact this.symm
  have hround : point.round - 1 = v.round := by
    have := congrArg Location.round hl
    simp [Point.round] at this
    exact this.symm
  have hpf : isProofOk env point v = some false := by
    unfold isProofOk
    rw [if_neg (by simp [hauthor]), if_neg (by simp [hround])]
    simp only [hp]
    rw [if_neg (by simp [hd]), if_pos htime]
  refine ⟨hpf, ?_, ?_⟩
  · exact checkDepsFrom_invalid_of_mem env point deps false _ hmem
      fun s' => step_trusted_proof_fail env point v s' pr hl.symm hp hd hpf
  · intro t ht
    cases ap with
    | toSelf =>
      simp only [getTime] at ht
      injection ht with h
      omega
    | direct th =>
      cases th with
      | includes peer =>
        simp only [getTime] at ht
        cases hf : List.find? (fun pt => pt.author = peer) incl with
        | none => rw [hf] at ht; injection ht with h; omega
        | some pt2 => rw [hf] at ht; injection ht with h; omega
      | witness peer =>
        simp only [getTime] at ht
        cases hf : List.find? (fun pt => pt.author = peer) wit with
        | none => rw [hf] at ht; injection ht with h; omega
        | some pt2 => rw [hf] at ht; injection ht with h; omega
    | indirect dest path =>
      simp only [getTime, Option.isNone] at ht
      injection ht with h
      omega

/-- Witness for C7 at a concrete input: the later point (time 3) proves its
previous point with digest 2 whose time is 7. -/
theorem c7_time_monotonic_witness :
    isProofOk envTrivial
        ⟨⟨⟨5, 1⟩, 3, 0, [], some ⟨2, []⟩, [(1, 2)], [], .toSelf, .toSelf⟩, 9⟩
        ⟨⟨⟨4, 1⟩, 7, 0, [], none, [], [], .toSelf, .toSelf⟩, 2⟩
      = some false
    ∧ checkDeps envTrivial
        ⟨⟨⟨5, 1⟩, 3, 0, [], some ⟨2, []⟩, [(1, 2)], [], .toSelf, .toSelf⟩, 9⟩
        [.trusted ⟨⟨⟨4, 1⟩, 7, 0, [], none, [], [], .toSelf, .toSelf⟩, 2⟩]
      = some (.invalid
          ⟨⟨⟨5, 1⟩, 3, 0, [], some ⟨2, []⟩, [(1, 2)], [], .toSelf, .toSelf⟩, 9⟩)
    ∧ (∀ t, getTime 0
          (some ⟨⟨⟨4, 1⟩, 7, 0, [], none, [], [], .toSelf, .toSelf⟩, 2⟩)
          .toSelf (some ⟨2, []⟩) [] [] none = some t →
        (⟨⟨⟨4, 1⟩, 7, 0, [], none, [], [], .toSelf, .toSelf⟩, 2⟩ : Point).body.time ≤ t) :=
  c7_time_monotonic envTrivial
    ⟨⟨⟨5, 1⟩, 3, 0, [], some ⟨2, []⟩, [(1, 2)], [], .toSelf, .toSelf⟩, 9⟩
    ⟨⟨⟨4, 1⟩, 7, 0, [], none, [], [], .toSelf, .toSelf⟩, 2⟩
    [.trusted ⟨⟨⟨4, 1⟩, 7, 0, [], none, [], [], .toSelf, .toSelf⟩, 2⟩]
    ⟨2, []⟩ ⟨⟨⟨4, 1⟩, 7, 0, [], none, [], [], .toSelf, .toSelf⟩, 2⟩ 0 .toSelf
    ⟨2, []⟩ [] [] none
    (by decide) (by decide) (by decide) (by decide) (by decide)

lemma alookup_aupdate_self {α : Type} (k : Nat) (v : α) (l : List (Nat × α))
    (h : alookup k l ≠ none) : alookup k (aupdate k v l) = some v := by
  induction l with
  | nil => simp [alookup] at h
  | cons kv rest ih =>
    by_cases hk : kv.1 = k
    · simp [aupdate, alookup, hk]
    · simp only [aupdate, alookup, hk, if_false, if_neg hk] at h ⊢
      exact ih h

/-- C8 counterexample: two locally produced points by the same author at
the same round but with different digests (10 and 11).  The claim says the
second `insert_exact_sign` call for the same author and round panics; the
code keys the versions map by digest and accepts the second call without
panicking. -/
theorem c8_counterexample :
    insertExactSign ⟨5, [(1, ⟨[]⟩)]⟩ (simplePoint 5 1 10)
      = some ⟨5, [(1, ⟨[(10, .localTrusted (simplePoint 5 1 10))]⟩)]⟩
    ∧ insertExactSign ⟨5, [(1, ⟨[(10, .localTrusted (simplePoint 5 1 10))]⟩)]⟩
        (simplePoint 5 1 11) ≠ none := by
  decide

/-- C8 (amended): `insert_exact_sign` panics when the point's round differs
from the round slot's round; it panics when called again for the same
author, round and digest; and a first insertion (for an author present in
the committee's location map) stores the point as a resolved local-trusted
entry, with no validation task. -/
theorem c8_insert_exact_sign (dr : DagRoundSlot) (p : Point)
    (loc : DagLocation)
    (hloc : alookup p.author dr.locations = some loc) :
    (p.round ≠ dr.round → insertExactSign dr p = none)
    ∧ (p.round = dr.round → alookup p.digest loc.versions ≠ none →
        insertExactSign dr p = none)
    ∧ (p.round = dr.round → alookup p.digest loc.versions = none →
        ∃ dr', insertExactSign dr p = some dr'
          ∧ alookup p.author dr'.locations
              = some ⟨(p.digest, .localTrusted p) :: loc.versions⟩) := by
  refine ⟨?_, ?_, ?_⟩
  · intro h
    unfold insertExactSign
    rw [if_pos h]
  · intro hr hv
    unfold insertExactSign
    rw [if_neg (by simp [hr]), hloc]
    cases hd : alookup p.digest loc.versions with
    | none => exact absurd hd hv
    | some e => simp only [hd]
  · intro hr hv
    unfold insertExactSign
    rw [if_neg (by simp [hr]), hloc]
    simp only [hv]
    refine ⟨_, rfl, ?_⟩
    exact alookup_aupdate_self p.author _ dr.locations (by rw [hloc]; simp)

/-- Witness for C8 (amended) at a concrete input: a round-5 slot with
author 1 present and an empty versions map. -/
theorem c8_insert_exact_sign_witness :
    ((simplePoint 4 1 10).round ≠ (⟨5, [(1, ⟨[]⟩)]⟩ : DagRoundSlot).round →
      insertExactSign ⟨5, [(1, ⟨[]⟩)]⟩ (simplePoint 4 1 10) = none)
    ∧ ((simplePoint 4 1 10).round = (⟨5, [(1, ⟨[]⟩)]⟩ : DagRoundSlot).round →
      alookup (simplePoint 4 1 10).digest (DagLocation.mk []).versions ≠ none →
      insertExactSign ⟨5, [(1, ⟨[]⟩)]⟩ (simplePoint 4 1 10) = none)
    ∧ ((simplePoint 4 1 10).round = (⟨5, [(1, ⟨[]⟩)]⟩ : DagRoundSlot).round →
      alookup (simplePoint 4 1 10).digest (DagLocation.mk []).versions = none →
      ∃ dr', insertExactSign ⟨5, [(1, ⟨[]⟩)]⟩ (simplePoint 4 1 10) = some dr'
        ∧ alookup (simplePoint 4 1 10).author dr'.locations
            = some ⟨(((simplePoint 4 1 10).digest,
                .localTrusted (simplePoint 4 1 10))) :: (DagLocation.mk []).versions⟩) :=
  c8_insert_exact_sign ⟨5, [(1, ⟨[]⟩)]⟩ (simplePoint 4 1 10) ⟨[]⟩ (by decide)

lemma alookup_binsert_self {α : Type} (k : Nat) (v : α) (l : List (Nat × α)) :
    alookup k (binsert k v l) = some v := by
  induction l with
  | nil => simp [binsert, alookup]
  | cons kv rest ih =>
    by_cases h1 : k < kv.1
    · simp [binsert, alookup, h1]
    · by_cases h2 : k = kv.1
      · simp [binsert, alookup, h1, h2]
      · have h3 : kv.1 ≠ k := fun h => h2 h.symm
        simp [binsert, alookup, h1, h2, h3, ih]

lemma alookup_binsert_ne {α : Type} (k k' : Nat) (v : α) (l : List (Nat × α))
    (h : k' ≠ k) : alookup k (binsert k' v l) = alookup k l := by
  induction l with
  | nil => simp [binsert, alookup, h]
  | cons kv rest ih =>
    by_cases h1 : k' < kv.1
    · simp [binsert, alookup, h1, h]
    · by_cases h2 : k' = kv.1
      · have h3 : kv.1 ≠ k := fun hc => h (h2.trans hc)
        simp [binsert, alookup, h1, h2, h, h3]
      · simp [binsert, alookup, h1, h2, ih]

lemma alookup_filter_keep {α : Type} (k : Nat) (P : Nat → Bool)
    (l : List (Nat × α)) (hk : P k = true) :
    alookup k (l.filter fun kv => P kv.1) = alookup k l := by
  induction l with
  | nil => rfl
  | cons kv rest ih =>
    rw [List.filter_cons]
    by_cases h2 : kv.1 = k
    · subst h2
      rw [if_pos (by simp [hk])]
      simp [alookup]
    · by_cases h1 : P kv.1 = true
      · rw [if_pos (by simp [h1])]
        simp only [alookup, if_neg h2]
        exact ih
      · rw [if_neg (by simp [h1])]
        simp only [alookup, if_neg h2]
        exact ih

lemma alookup_filter_drop {α : Type} (k : Nat) (P : Nat → Bool)
    (l : List (Nat × α)) (hk : P k = false) :
    alookup k (l.filter fun kv => P kv.1) = none := by
  induction l with
  | nil => rfl
  | cons kv rest ih =>
    by_cases h1 : P kv.1 = true
    · have h2 : kv.1 ≠ k := by
        intro hc
        rw [hc, hk] at h1
        exact Bool.noConfusion h1
      rw [List.filter_cons, if_pos (by simp [h1])]
      simp only [alookup, if_neg h2]
      exact ih
    · rw [List.filter_cons, if_neg (by simp [h1])]
      exact ih

lemma alookup_aremove_ne {α : Type} (k k' : Nat) (l : List (Nat × α))
    (h : k ≠ k') : alookup k (aremove k' l) = alookup k l :=
  alookup_filter_keep k (fun x => decide (x ≠ k')) l (by simp [h])

lemma alookup_keyfilter_gt {α : Type} (k p : Nat) (l : List (Nat × α))
    (h : p < k) :
    alookup k (l.filter fun kv => p < kv.1) = alookup k l :=
  alookup_filter_keep k (fun x => decide (p < x)) l (by simp [h])

lemma alookup_keyfilter_le {α : Type} (k p : Nat) (l : List (Nat × α))
    (h : k ≤ p) :
    alookup k (l.filter fun kv => p < kv.1) = none :=
  alookup_filter_drop k (fun x => decide (p < x)) l (by simp; omega)

/-- C1 (amended): for a broadcast at a round strictly beyond the gate's
local round, from an author that is either unseen or last seen below the
local round, with the round's buffer entry resolving to committee size `nc`
and buffered author map `authors` (`bfRoundEntry`): if the number of
distinct authors holding any buffered broadcast — whether classified
verified or invalid — after this insertion stays below the reliable
minority of `nc`, the caller gets `TryLater`, the local round does not
move, nothing is flushed, and the point stays buffered; once that count
reaches the reliable minority, the caller gets `Accepted`, the local round
advances to the broadcast round `R`, every buffered round at or below `R`
is discarded while strictly newer buffers are untouched, and the output
stream receives exactly the buffered points of rounds `R−1` and `R`. -/
theorem c1_reliable_minority_advances (env : Env) (st : BroadcastFilterState)
    (p : Point) (nc : Nat) (authors : List (Nat × List (Nat × ConsensusEvent)))
    (authorsNew : List (Nat × List (Nat × ConsensusEvent)))
    (h0 : st.currentDagRound < p.round)
    (hlast : alookup p.author st.lastByPeer = none
      ∨ ∃ o, alookup p.author st.lastByPeer = some o ∧ o < st.currentDagRound)
    (hentry : bfRoundEntry env st p.round = some (nc, authors))
    (hnew : authorsNew = binsert p.author
      (binsert p.digest (bfEvent env p) ((alookup p.author authors).getD []))
      authors) :
    (authorsNew.length < reliableMinority nc →
      (bfAdd env st p).2.1 = .tryLater
      ∧ (bfAdd env st p).1.currentDagRound = st.currentDagRound
      ∧ (bfAdd env st p).2.2 = []
      ∧ (bfAdd env st p).1.byRound
          = binsert p.round (nc, authorsNew) st.byRound)
    ∧ (reliableMinority nc ≤ authorsNew.length →
      (bfAdd env st p).2.1 = .accepted
      ∧ (bfAdd env st p).1.currentDagRound = p.round
      ∧ (∀ r, r ≤ p.round → alookup r (bfAdd env st p).1.byRound = none)
      ∧ (∀ r, p.round < r →
          alookup r (bfAdd env st p).1.byRound = alookup r st.byRound)
      ∧ (bfAdd env st p).2.2
          = (((alookup (p.round - 1) st.byRound).map
                (flushEntry (p.round - 1))).toList
             ++ [flushEntry p.round (nc, authorsNew)]).flatten) := by
  have hnele : ¬ p.round ≤ st.currentDagRound := by omega
  have hlt_irr : ¬ p.round < p.round := lt_irrefl _
  have hmain : bfAdd env st p =
      (if authorsNew.length < reliableMinority nc then
        (⟨binsert p.author p.round st.lastByPeer,
          binsert p.round (nc, authorsNew) st.byRound,
          st.currentDagRound⟩, .tryLater, [])
      else
        ((bfAdvance ⟨binsert p.author p.round st.lastByPeer,
            binsert p.round (nc, authorsNew) st.byRound,
            st.currentDagRound⟩ p.round).1, .accepted,
          (bfAdvance ⟨binsert p.author p.round st.lastByPeer,
            binsert p.round (nc, authorsNew) st.byRound,
            st.currentDagRound⟩ p.round).2)) := by
    rcases hlast with hnone | ⟨o, ho, hlt⟩
    · simp only [bfAdd, hnele, if_false, hnone, hlt_irr]
      cases hlk : alookup p.round st.byRound with
      | some e =>
        unfold bfRoundEntry at hentry
        rw [hlk] at hentry
        injection hentry with he
        subst he
        simp only
        rw [← hnew]
      | none =>
        unfold bfRoundEntry at hentry
        rw [hlk] at hentry
        cases hnc : nodeCountTryFrom (env.peersFor p.round).length with
        | none => rw [hnc] at hentry; exact Option.noConfusion hentry
        | some nc' =>
          rw [hnc] at hentry
          injection hentry with he
          cases he
          simp only
          rw [← hnew]
    · have hc1 : ¬ st.currentDagRound ≤ o := by omega
      have hc2 : o < p.round := by omega
      simp only [bfAdd, hnele, if_false, ho, hc1, hc2, if_true, hlt_irr,
        false_and, and_false, true_and, and_true]
      cases hlk : alookup p.round st.byRound with
      | some e =>
        unfold bfRoundEntry at hentry
        rw [hlk] at hentry
        injection hentry with he
        subst he
        simp only
        rw [← hnew]
      | none =>
        unfold bfRoundEntry at hentry
        rw [hlk] at hentry
        cases hnc : nodeCountTryFrom (env.peersFor p.round).length with
        | none => rw [hnc] at hentry; exact Option.noConfusion hentry
        | some nc' =>
          rw [hnc] at hentry
          injection hentry with he
          cases he
          simp only
          rw [← hnew]
  have hadv : bfAdvance ⟨binsert p.author p.round st.lastByPeer,
      binsert p.round (nc, authorsNew) st.byRound, st.currentDagRound⟩ p.round
      = (⟨binsert p.author p.round st.lastByPeer,
          ((aremove p.round (aremove (p.round - 1)
            (binsert p.round (nc, authorsNew) st.byRound))).filter
            fun kv => p.round < kv.1),
          p.round⟩,
        (((alookup (p.round - 1) st.byRound).map
            (flushEntry (p.round - 1))).toList
          ++ [flushEntry p.round (nc, authorsNew)]).flatten) := by
    simp only [bfAdvance, h0, if_true]
    rw [alookup_binsert_ne _ _ _ _ (by omega : p.round ≠ p.round - 1)]
    rw [alookup_binsert_self]
    rfl
  constructor
  · intro hth
    rw [hmain, if_pos hth]
    exact ⟨rfl, rfl, rfl, rfl⟩
  · intro hth
    rw [hmain, if_neg (not_lt.mpr hth)]
    refine ⟨rfl, ?_, ?_, ?_, ?_⟩
    · rw [hadv]
    · intro r hr
      rw [hadv]
      exact alookup_keyfilter_le r p.round _ hr
    · intro r hr
      rw [hadv]
      simp only
      rw [alookup_keyfilter_gt r p.round _ hr]
      rw [alookup_aremove_ne _ _ _ (by omega : r ≠ p.round)]
      rw [alookup_aremove_ne _ _ _ (by omega : r ≠ p.round - 1)]
      rw [alookup_binsert_ne _ _ _ _ (by omega : p.round ≠ r)]
    · rw [hadv]

/-- Witness for C1 (amended) at a concrete input: committee of 7 (reliable
minority 3), local round 4, first broadcast at round 5 from author 1; the
single buffered author is below the threshold, so the call returns
`TryLater`, buffers the point and does not advance. -/
theorem c1_reliable_minority_advances_witness :
    (([(1, [(1, ConsensusEvent.invalidEvent (.notExists ⟨⟨5, 1⟩, 1⟩))])] :
        List (Nat × List (Nat × ConsensusEvent))).length < reliableMinority 7 →
      (bfAdd envSevenBad ⟨[], [], 4⟩ (simplePoint 5 1 1)).2.1 = .tryLater
      ∧ (bfAdd envSevenBad ⟨[], [], 4⟩ (simplePoint 5 1 1)).1.currentDagRound
          = (⟨[], [], 4⟩ : BroadcastFilterState).currentDagRound
      ∧ (bfAdd envSevenBad ⟨[], [], 4⟩ (simplePoint 5 1 1)).2.2 = []
      ∧ (bfAdd envSevenBad ⟨[], [], 4⟩ (simplePoint 5 1 1)).1.byRound
          = binsert (simplePoint 5 1 1).round
              (7, [(1, [(1, ConsensusEvent.invalidEvent (.notExists ⟨⟨5, 1⟩, 1⟩))])])
              (⟨[], [], 4⟩ : BroadcastFilterState).byRound)
    ∧ (reliableMinority 7 ≤
        ([(1, [(1, ConsensusEvent.invalidEvent (.notExists ⟨⟨5, 1⟩, 1⟩))])] :
          List (Nat × List (Nat × ConsensusEvent))).length →
      (bfAdd envSevenBad ⟨[], [], 4⟩ (simplePoint 5 1 1)).2.1 = .accepted
      ∧ (bfAdd envSevenBad ⟨[], [], 4⟩ (simplePoint 5 1 1)).1.currentDagRound
          = (simplePoint 5 1 1).round
      ∧ (∀ r, r ≤ (simplePoint 5 1 1).round →
          alookup r (bfAdd envSevenBad ⟨[], [], 4⟩ (simplePoint 5 1 1)).1.byRound
            = none)
      ∧ (∀ r, (simplePoint 5 1 1).round < r →
          alookup r (bfAdd envSevenBad ⟨[], [], 4⟩ (simplePoint 5 1 1)).1.byRound
            = alookup r (⟨[], [], 4⟩ : BroadcastFilterState).byRound)
      ∧ (bfAdd envSevenBad ⟨[], [], 4⟩ (simplePoint 5 1 1)).2.2
          = (((alookup ((simplePoint 5 1 1).round - 1)
                (⟨[], [], 4⟩ : BroadcastFilterState).byRound).map
                (flushEntry ((simplePoint 5 1 1).round - 1))).toList
             ++ [flushEntry (simplePoint 5 1 1).round
                  (7, [(1, [(1, ConsensusEvent.invalidEvent
                        (.notExists ⟨⟨5, 1⟩, 1⟩))])])]).flatten) :=
  c1_reliable_minority_advances envSevenBad ⟨[], [], 4⟩ (simplePoint 5 1 1) 7 []
    [(1, [(1, ConsensusEvent.invalidEvent (.notExists ⟨⟨5, 1⟩, 1⟩))])]
    (by decide) (Or.inl (by decide)) (by decide) (by decide)

/-- C1 counterexample, two scenarios against the claim as stated.
Scenario A: committee of 7 (reliable minority 3), local round 4, three
broadcasts at round 5 by distinct authors, every one failing phase-1
verification — so the count of authors holding a buffered VERIFIED point is
zero and never reaches the threshold — yet the third call advances the
local round to 5 and returns `Accepted` (the gate counts invalid broadcasts
too).  Scenario B: a structurally valid broadcast at a round exactly equal
to the local round ("at ... the gate's current local round") is answered
`Accepted` immediately with no buffering, counting, or `TryLater`, and no
advancement ever happens from such broadcasts. -/
theorem c1_counterexample :
    (bfEvent envSevenBad (simplePoint 5 1 1)
        = .invalidEvent (.notExists ⟨⟨5, 1⟩, 1⟩)
      ∧ bfEvent envSevenBad (simplePoint 5 2 2)
        = .invalidEvent (.notExists ⟨⟨5, 2⟩, 2⟩)
      ∧ bfEvent envSevenBad (simplePoint 5 3 3)
        = .invalidEvent (.notExists ⟨⟨5, 3⟩, 3⟩))
    ∧ (bfAdd envSevenBad ⟨[], [], 4⟩ (simplePoint 5 1 1)).2.1 = .tryLater
    ∧ (bfAdd envSevenBad (bfAdd envSevenBad ⟨[], [], 4⟩ (simplePoint 5 1 1)).1
        (simplePoint 5 2 2)).2.1 = .tryLater
    ∧ (bfAdd envSevenBad
        (bfAdd envSevenBad (bfAdd envSevenBad ⟨[], [], 4⟩ (simplePoint 5 1 1)).1
          (simplePoint 5 2 2)).1
        (simplePoint 5 3 3)).2.1 = .accepted
    ∧ (bfAdd envSevenBad
        (bfAdd envSevenBad (bfAdd envSevenBad ⟨[], [], 4⟩ (simplePoint 5 1 1)).1
          (simplePoint 5 2 2)).1
        (simplePoint 5 3 3)).1.currentDagRound = 5
    ∧ verify envThreeGood
        ⟨⟨⟨5, 1⟩, 0, 0, [], none, [(1, 0)], [], .toSelf, .toSelf⟩, 1⟩ = .ok ()
    ∧ (bfAdd envThreeGood ⟨[], [], 5⟩
        ⟨⟨⟨5, 1⟩, 0, 0, [], none, [(1, 0)], [], .toSelf, .toSelf⟩, 1⟩).2.1
      = .accepted
    ∧ (bfAdd envThreeGood ⟨[], [], 5⟩
        ⟨⟨⟨5, 1⟩, 0, 0, [], none, [(1, 0)], [], .toSelf, .toSelf⟩, 1⟩).1
      = ⟨[], [], 5⟩ := by
  exact ⟨⟨rfl, rfl, rfl⟩, by decide, by decide, by decide, by decide, rfl,
    by decide, by decide⟩

end Tycho
